import Mathlib

/-!
# A verification model of the `simple-banking-cli` ledger engine

This file is a shallow embedding, in Lean 4, of the core ledger engine of the
`simple-banking-cli` Rust repository: the data model for customers, accounts
and transactions (`src/models/*.rs`), the mutation operations on the `Bank`
aggregate (`src/bank/core.rs`, `src/bank/transactions.rs`), the error taxonomy
(`src/errors.rs`) and the persistence round trip (`src/persistence.rs`).

Modelling conventions:
* Rust `f64` monetary amounts are modelled as `ℚ`; all comparisons in the
  source (`< 0.0`, `<= 0.0`, `balance < amount`) translate literally.
* `uuid::Uuid::new_v4()` and `chrono::Utc::now()` are environment inputs; each
  operation that the Rust code lets generate a fresh id or timestamp takes the
  generated value as an explicit `String` argument.
* `HashMap<String, Customer>` is modelled as an association list
  `List (String × Customer)`; `get`/`get_mut` read or rewrite the first entry
  with the key, `insert` replaces the first entry or appends a new one.
* `&mut self` methods become state-passing functions: account- and
  customer-level methods return `Except BankError` of the updated value (they
  never mutate before failing), while `Bank`-level operations return the
  outcome paired with the resulting bank, because `Bank::transfer` can fail
  after having already mutated the ledger.
* `serde_json` text rendering is treated as a faithful external library; the
  persisted store is modelled at the level of the JSON document tree.
-/

/-- `BankError` from `src/errors.rs`. -/
inductive BankError where
  | CustomerNotFound (id : String)
  | AccountNotFound (id : String)
  | InsufficientFunds (available requested : ℚ)
  | InvalidAmount (value : ℚ)
  | CustomerAlreadyExists (msg : String)
  | IoError (msg : String)
  | SerializationError (msg : String)
deriving DecidableEq, Repr

/-- `TransactionType` from `src/models/transaction.rs`. -/
inductive TransactionType where
  | Deposit
  | Withdrawal
  | Transfer (to_account_id : String)
deriving DecidableEq, Repr

/-- `Transaction` from `src/models/transaction.rs`.  `timestamp` is the
opaque instant produced by `Utc::now()`, modelled as a `String`. -/
structure Transaction where
  id : String
  transaction_type : TransactionType
  amount : ℚ
  timestamp : String
  balance_after : ℚ
deriving DecidableEq, Repr

/-- `Transaction::new`: the fresh UUID and the current instant are passed in
explicitly. -/
def Transaction.new (freshId now : String) (transaction_type : TransactionType)
    (amount balance_after : ℚ) : Transaction :=
  { id := freshId
    transaction_type := transaction_type
    amount := amount
    timestamp := now
    balance_after := balance_after }

/-- `Account` from `src/models/account.rs`. -/
structure Account where
  id : String
  balance : ℚ
  transactions : List Transaction
  created_at : String
deriving DecidableEq, Repr

/-- `Account::new`: rejects a negative initial deposit, records an initial
Deposit transaction iff the initial deposit is strictly positive.  `accId` and
`now` stand for the generated UUID / current instant; `txId` for the UUID the
initial transaction would receive. -/
def Account.new (accId now txId : String) (initial_deposit : ℚ) :
    Except BankError Account :=
  if initial_deposit < 0 then
    .error (.InvalidAmount initial_deposit)
  else
    let account : Account :=
      { id := accId
        balance := initial_deposit
        transactions := []
        created_at := now }
    if initial_deposit > 0 then
      .ok { account with
              transactions :=
                account.transactions ++
                  [Transaction.new txId now .Deposit initial_deposit initial_deposit] }
    else
      .ok account

/-- `Account::deposit`: rejects `amount <= 0`, otherwise raises the balance
and appends a Deposit transaction carrying the new balance. -/
def Account.deposit (txId now : String) (amount : ℚ) (a : Account) :
    Except BankError Account :=
  if amount ≤ 0 then
    .error (.InvalidAmount amount)
  else
    let balance := a.balance + amount
    .ok { a with
            balance := balance
            transactions :=
              a.transactions ++ [Transaction.new txId now .Deposit amount balance] }

/-- `Account::withdraw`: rejects `amount <= 0`, then `balance < amount`
(without mutating), otherwise lowers the balance and appends a Withdrawal
transaction carrying the new balance. -/
def Account.withdraw (txId now : String) (amount : ℚ) (a : Account) :
    Except BankError Account :=
  if amount ≤ 0 then
    .error (.InvalidAmount amount)
  else if a.balance < amount then
    .error (.InsufficientFunds a.balance amount)
  else
    let balance := a.balance - amount
    .ok { a with
            balance := balance
            transactions :=
              a.transactions ++ [Transaction.new txId now .Withdrawal amount balance] }

/-- `Account::total_deposits`: sum of the amounts of the Deposit
transactions. -/
def Account.total_deposits (a : Account) : ℚ :=
  ((a.transactions.filter fun tx =>
      match tx.transaction_type with
      | .Deposit => true
      | _ => false).map fun tx => tx.amount).sum

/-- `Account::total_withdrawals`: sum of the amounts of the transactions whose
type matches exactly `TransactionType::Withdrawal`. -/
def Account.total_withdrawals (a : Account) : ℚ :=
  ((a.transactions.filter fun tx =>
      match tx.transaction_type with
      | .Withdrawal => true
      | _ => false).map fun tx => tx.amount).sum

/-- `Account::mark_last_as_transfer`: rewrites the type of the most recent
transaction to `Transfer { to_account_id }`; no-op on an empty log. -/
def Account.mark_last_as_transfer (to_account_id : String) (a : Account) :
    Account :=
  match a.transactions.getLast? with
  | none => a
  | some last_tx =>
      { a with
          transactions :=
            a.transactions.dropLast ++
              [{ last_tx with transaction_type := .Transfer to_account_id }] }

/-- `Customer` from `src/models/customer.rs`. -/
structure Customer where
  id : String
  name : String
  email : String
  account : Option Account
  registered_at : String
deriving DecidableEq, Repr

/-- `Customer::new`: a fresh customer with no account. -/
def Customer.new (freshId now name email : String) : Customer :=
  { id := freshId
    name := name
    email := email
    account := none
    registered_at := now }

/-- `Customer::create_account`: fails with
`CustomerAlreadyExists("Customer already has an account")` when an account is
already present, otherwise delegates to `Account::new`. -/
def Customer.create_account (accId now txId : String) (initial_deposit : ℚ)
    (c : Customer) : Except BankError Customer :=
  match c.account with
  | some _ =>
      .error (.CustomerAlreadyExists "Customer already has an account")
  | none =>
      match Account.new accId now txId initial_deposit with
      | .error e => .error e
      | .ok account => .ok { c with account := some account }

/-- `Customer::get_account` (and the success/failure behaviour of
`get_account_mut`): the account, or `AccountNotFound(customer id)`. -/
def Customer.get_account (c : Customer) : Except BankError Account :=
  match c.account with
  | some a => .ok a
  | none => .error (.AccountNotFound c.id)

/-- `Customer::has_account`. -/
def Customer.has_account (c : Customer) : Bool :=
  c.account.isSome

/-- `HashMap::get` on the association-list model: the value of the first
entry with the key. -/
def lookupKey (l : List (String × Customer)) (k : String) : Option Customer :=
  match l with
  | [] => none
  | (k', v) :: rest => if k' = k then some v else lookupKey rest k

/-- `HashMap::contains_key` on the association-list model. -/
def containsKey (l : List (String × Customer)) (k : String) : Bool :=
  (lookupKey l k).isSome

/-- Writing through `HashMap::get_mut`, or `HashMap::insert`: replace the
value of the first entry with the key, or append a new entry when the key is
absent. -/
def updateVal (l : List (String × Customer)) (k : String) (v : Customer) :
    List (String × Customer) :=
  match l with
  | [] => [(k, v)]
  | (k', v') :: rest =>
      if k' = k then (k', v) :: rest else (k', v') :: updateVal rest k v

/-- `Bank` from `src/bank/core.rs`.  The `HashMap<String, Customer>` is
modelled as an association list. -/
structure Bank where
  name : String
  customers : List (String × Customer)
  total_transactions : Nat
deriving DecidableEq, Repr

/-- `Bank::new`. -/
def Bank.new (name : String) : Bank :=
  { name := name, customers := [], total_transactions := 0 }

/-- Rust `str::to_lowercase`, modelled character by character (emails in the
source are compared after lowercasing both sides). -/
def lowercase (s : String) : String :=
  ⟨s.data.map Char.toLower⟩

/-- `Bank::register_customer`: rejects a case-insensitively duplicate email
with `CustomerAlreadyExists(email)`, otherwise stores a fresh customer keyed
by its generated id, which is returned.  `custId` and `now` stand for the
generated UUID / current instant. -/
def Bank.register_customer (custId now : String) (name email : String)
    (b : Bank) : Except BankError String × Bank :=
  if b.customers.any fun p => lowercase p.2.email = lowercase email then
    (.error (.CustomerAlreadyExists email), b)
  else
    let customer := Customer.new custId now name email
    (.ok customer.id, { b with customers := updateVal b.customers customer.id customer })

/-- `Bank::create_account_for_customer`: looks the customer up, delegates to
`Customer::create_account`, increments `total_transactions` on success, and
returns the new account's id. -/
def Bank.create_account_for_customer (accId now txId : String)
    (customer_id : String) (initial_deposit : ℚ) (b : Bank) :
    Except BankError String × Bank :=
  match lookupKey b.customers customer_id with
  | none => (.error (.CustomerNotFound customer_id), b)
  | some customer =>
      match customer.create_account accId now txId initial_deposit with
      | .error e => (.error e, b)
      | .ok customer' =>
          let b' : Bank :=
            { b with
                customers := updateVal b.customers customer_id customer'
                total_transactions := b.total_transactions + 1 }
          match customer'.get_account with
          | .error e => (.error e, b')
          | .ok account => (.ok account.id, b')

/-- `Bank::deposit` (`src/bank/transactions.rs`): delegates to the customer's
account, increments `total_transactions` and returns the new balance. -/
def Bank.deposit (txId now : String) (customer_id : String) (amount : ℚ)
    (b : Bank) : Except BankError ℚ × Bank :=
  match lookupKey b.customers customer_id with
  | none => (.error (.CustomerNotFound customer_id), b)
  | some customer =>
      match customer.account with
      | none => (.error (.AccountNotFound customer.id), b)
      | some account =>
          match account.deposit txId now amount with
          | .error e => (.error e, b)
          | .ok account' =>
              (.ok account'.balance,
               { b with
                   customers :=
                     updateVal b.customers customer_id
                       { customer with account := some account' }
                   total_transactions := b.total_transactions + 1 })

/-- `Bank::withdraw` (`src/bank/transactions.rs`). -/
def Bank.withdraw (txId now : String) (customer_id : String) (amount : ℚ)
    (b : Bank) : Except BankError ℚ × Bank :=
  match lookupKey b.customers customer_id with
  | none => (.error (.CustomerNotFound customer_id), b)
  | some customer =>
      match customer.account with
      | none => (.error (.AccountNotFound customer.id), b)
      | some account =>
          match account.withdraw txId now amount with
          | .error e => (.error e, b)
          | .ok account' =>
              (.ok account'.balance,
               { b with
                   customers :=
                     updateVal b.customers customer_id
                       { customer with account := some account' }
                   total_transactions := b.total_transactions + 1 })

/-- `Bank::transfer` (`src/bank/transactions.rs`), step by step: validate that
both customer ids exist; withdraw from the source account; deposit into the
destination account, recording its id; reclassify the source's last
transaction as a transfer; add 2 to `total_transactions`.  Each scoped block
of the Rust code re-borrows from the map, so each step here re-reads the
current bank; mutations already applied persist when a later step fails,
exactly as in the source.  `wTxId`/`wNow` and `dTxId`/`dNow` are the fresh
id/instant for the withdrawal and deposit legs. -/
def Bank.transfer (wTxId wNow dTxId dNow : String)
    (from_customer_id to_customer_id : String) (amount : ℚ) (b : Bank) :
    Except BankError Unit × Bank :=
  if ¬ containsKey b.customers from_customer_id then
    (.error (.CustomerNotFound from_customer_id), b)
  else if ¬ containsKey b.customers to_customer_id then
    (.error (.CustomerNotFound to_customer_id), b)
  else
    match lookupKey b.customers from_customer_id with
    | none => (.error (.CustomerNotFound from_customer_id), b)
    | some from_customer =>
        match from_customer.account with
        | none => (.error (.AccountNotFound from_customer.id), b)
        | some from_account =>
            match from_account.withdraw wTxId wNow amount with
            | .error e => (.error e, b)
            | .ok from_account' =>
                let b1 : Bank :=
                  { b with
                      customers :=
                        updateVal b.customers from_customer_id
                          { from_customer with account := some from_account' } }
                match lookupKey b1.customers to_customer_id with
                | none => (.error (.CustomerNotFound to_customer_id), b1)
                | some to_customer =>
                    match to_customer.account with
                    | none => (.error (.AccountNotFound to_customer.id), b1)
                    | some to_account =>
                        match to_account.deposit dTxId dNow amount with
                        | .error e => (.error e, b1)
                        | .ok to_account' =>
                            let to_account_id := to_account'.id
                            let b2 : Bank :=
                              { b1 with
                                  customers :=
                                    updateVal b1.customers to_customer_id
                                      { to_customer with account := some to_account' } }
                            match lookupKey b2.customers from_customer_id with
                            | none => (.error (.CustomerNotFound from_customer_id), b2)
                            | some from_customer2 =>
                                match from_customer2.account with
                                | none => (.error (.AccountNotFound from_customer2.id), b2)
                                | some from_account2 =>
                                    let b3 : Bank :=
                                      { b2 with
                                          customers :=
                                            updateVal b2.customers from_customer_id
                                              { from_customer2 with
                                                  account := some
                                                    (from_account2.mark_last_as_transfer
                                                      to_account_id) } }
                                    (.ok (),
                                     { b3 with
                                         total_transactions := b3.total_transactions + 2 })

/-- `Bank::get_customer`. -/
def Bank.get_customer (customer_id : String) (b : Bank) :
    Except BankError Customer :=
  match lookupKey b.customers customer_id with
  | none => .error (.CustomerNotFound customer_id)
  | some c => .ok c

/-- `Bank::total_bank_balance`: the sum of the balances of the accounts of
the customers that have one. -/
def Bank.total_bank_balance (b : Bank) : ℚ :=
  ((b.customers.filterMap fun p => p.2.account).map fun a => a.balance).sum

/-!
## Persistence (`src/persistence.rs`)

`save_bank` serializes the whole `Bank` with `serde_json` and writes the text
to a file; `load_bank` reads the file back and deserializes.  The JSON
document is modelled as a tree (`Json`), the encoders mirror the
serde-derived layout of each struct (field names in declaration order, unit
enum variants as strings, struct variants as singleton objects), and the file
system is a map from filename to stored document; `serde_json`'s rendering of
a document tree to text and back is treated as the identity it implements.
-/

/-- A JSON document tree. -/
inductive Json where
  | null
  | bool (b : Bool)
  | num (q : ℚ)
  | str (s : String)
  | arr (elems : List Json)
  | obj (fields : List (String × Json))
deriving Repr

/-- serde layout of `TransactionType`: externally tagged enum. -/
def encodeTransactionType : TransactionType → Json
  | .Deposit => .str "Deposit"
  | .Withdrawal => .str "Withdrawal"
  | .Transfer to_account_id =>
      .obj [("Transfer", .obj [("to_account_id", .str to_account_id)])]

def decodeTransactionType : Json → Option TransactionType
  | .str "Deposit" => some .Deposit
  | .str "Withdrawal" => some .Withdrawal
  | .obj [("Transfer", .obj [("to_account_id", .str to_account_id)])] =>
      some (.Transfer to_account_id)
  | _ => none

/-- serde layout of `Transaction`. -/
def encodeTransaction (t : Transaction) : Json :=
  .obj [("id", .str t.id),
        ("transaction_type", encodeTransactionType t.transaction_type),
        ("amount", .num t.amount),
        ("timestamp", .str t.timestamp),
        ("balance_after", .num t.balance_after)]

def decodeTransaction : Json → Option Transaction
  | .obj [("id", .str id), ("transaction_type", jty), ("amount", .num amount),
          ("timestamp", .str timestamp), ("balance_after", .num balance_after)] =>
      (decodeTransactionType jty).map fun ty =>
        { id := id, transaction_type := ty, amount := amount,
          timestamp := timestamp, balance_after := balance_after }
  | _ => none

/-- Decode every element of a JSON array, failing if any element fails. -/
def decodeListWith (f : Json → Option α) : List Json → Option (List α)
  | [] => some []
  | j :: rest =>
      match f j with
      | none => none
      | some a => (decodeListWith f rest).map fun l => a :: l

/-- serde layout of `Account`. -/
def encodeAccount (a : Account) : Json :=
  .obj [("id", .str a.id),
        ("balance", .num a.balance),
        ("transactions", .arr (a.transactions.map encodeTransaction)),
        ("created_at", .str a.created_at)]

def decodeAccount : Json → Option Account
  | .obj [("id", .str id), ("balance", .num balance),
          ("transactions", .arr jtxs), ("created_at", .str created_at)] =>
      (decodeListWith decodeTransaction jtxs).map fun transactions =>
        { id := id, balance := balance, transactions := transactions,
          created_at := created_at }
  | _ => none

/-- serde layout of `Option<Account>`: `None` is `null`. -/
def encodeOptAccount : Option Account → Json
  | none => .null
  | some a => encodeAccount a

def decodeOptAccount : Json → Option (Option Account)
  | .null => some none
  | j => (decodeAccount j).map some

/-- serde layout of `Customer`. -/
def encodeCustomer (c : Customer) : Json :=
  .obj [("id", .str c.id),
        ("name", .str c.name),
        ("email", .str c.email),
        ("account", encodeOptAccount c.account),
        ("registered_at", .str c.registered_at)]

def decodeCustomer : Json → Option Customer
  | .obj [("id", .str id), ("name", .str name), ("email", .str email),
          ("account", jacc), ("registered_at", .str registered_at)] =>
      (decodeOptAccount jacc).map fun account =>
        { id := id, name := name, email := email, account := account,
          registered_at := registered_at }
  | _ => none

/-- serde layout of `HashMap<String, Customer>`: a JSON object. -/
def decodeCustomerMap : List (String × Json) → Option (List (String × Customer))
  | [] => some []
  | (k, j) :: rest =>
      match decodeCustomer j with
      | none => none
      | some c => (decodeCustomerMap rest).map fun l => (k, c) :: l

/-- serde layout of a `u64` counter. -/
def encodeNat (n : Nat) : Json := .num (n : ℚ)

def decodeNat : Json → Option Nat
  | .num q => if q.den = 1 ∧ 0 ≤ q.num then some q.num.toNat else none
  | _ => none

/-- serde layout of `Bank`. -/
def encodeBank (b : Bank) : Json :=
  .obj [("name", .str b.name),
        ("customers", .obj (b.customers.map fun p => (p.1, encodeCustomer p.2))),
        ("total_transactions", encodeNat b.total_transactions)]

def decodeBank : Json → Option Bank
  | .obj [("name", .str name), ("customers", .obj jcustomers),
          ("total_transactions", jtotal)] =>
      match decodeCustomerMap jcustomers with
      | none => none
      | some customers =>
          (decodeNat jtotal).map fun total_transactions =>
            { name := name, customers := customers,
              total_transactions := total_transactions }
  | _ => none

/-- `save_bank`: serialize the whole bank and overwrite the file at
`filename`. -/
def save_bank (b : Bank) (filename : String) (fs : String → Option Json) :
    String → Option Json :=
  fun f => if f = filename then some (encodeBank b) else fs f

/-- `load_bank`: read the file at `filename` and deserialize a `Bank`;
a missing file is an `IoError`, an undecodable document a
`SerializationError`. -/
def load_bank (filename : String) (fs : String → Option Json) :
    Except BankError Bank :=
  match fs filename with
  | none => .error (.IoError filename)
  | some j =>
      match decodeBank j with
      | none => .error (.SerializationError filename)
      | some b => .ok b

/-!
## Reachable ledger states

A bank state is reachable when it arises from `Bank::new` by any sequence of
the mutating operations, each applied with arbitrary arguments and arbitrary
fresh ids/instants, whether the operation succeeds or fails (the post-state of
a failing operation is a reachable state too).
-/

inductive Reachable : Bank → Prop where
  | init (name : String) : Reachable (Bank.new name)
  | register (custId now name email : String) {b : Bank} :
      Reachable b → Reachable (b.register_customer custId now name email).2
  | create_account (accId now txId customer_id : String) (amount : ℚ) {b : Bank} :
      Reachable b →
      Reachable (b.create_account_for_customer accId now txId customer_id amount).2
  | deposit (txId now customer_id : String) (amount : ℚ) {b : Bank} :
      Reachable b → Reachable (b.deposit txId now customer_id amount).2
  | withdraw (txId now customer_id : String) (amount : ℚ) {b : Bank} :
      Reachable b → Reachable (b.withdraw txId now customer_id amount).2
  | transfer (wTxId wNow dTxId dNow from_id to_id : String) (amount : ℚ) {b : Bank} :
      Reachable b →
      Reachable (b.transfer wTxId wNow dTxId dNow from_id to_id amount).2

/-!
## Characterization of the account-level operations
-/

theorem Account.deposit_eq_ok {i n : String} {x : ℚ} {a a' : Account}
    (h : a.deposit i n x = .ok a') :
    0 < x ∧
      a' = { a with
               balance := a.balance + x
               transactions := a.transactions ++
                 [Transaction.new i n .Deposit x (a.balance + x)] } := by
  unfold Account.deposit at h
  split_ifs at h with h1
  all_goals first
    | exact Except.noConfusion h
    | (cases h; exact ⟨lt_of_not_le h1, rfl⟩)

theorem Account.withdraw_eq_ok {i n : String} {x : ℚ} {a a' : Account}
    (h : a.withdraw i n x = .ok a') :
    0 < x ∧ x ≤ a.balance ∧
      a' = { a with
               balance := a.balance - x
               transactions := a.transactions ++
                 [Transaction.new i n .Withdrawal x (a.balance - x)] } := by
  unfold Account.withdraw at h
  split_ifs at h with h1 h2
  all_goals first
    | exact Except.noConfusion h
    | (cases h; exact ⟨lt_of_not_le h1, le_of_not_lt h2, rfl⟩)

theorem Account.new_eq_ok {accId now txId : String} {d : ℚ} {a : Account}
    (h : Account.new accId now txId d = .ok a) :
    0 ≤ d ∧ a.id = accId ∧ a.balance = d ∧ a.created_at = now ∧
      a.transactions =
        (if 0 < d then [Transaction.new txId now .Deposit d d] else []) := by
  unfold Account.new at h
  split_ifs at h with h1 h2
  · cases h
    exact ⟨le_of_not_lt h1, rfl, rfl, rfl, by rw [if_pos h2]; rfl⟩
  · cases h
    exact ⟨le_of_not_lt h1, rfl, rfl, rfl, by rw [if_neg h2]⟩

theorem Account.mark_balance (to_id : String) (a : Account) :
    (a.mark_last_as_transfer to_id).balance = a.balance := by
  unfold Account.mark_last_as_transfer
  split <;> rfl

theorem Account.mark_id (to_id : String) (a : Account) :
    (a.mark_last_as_transfer to_id).id = a.id := by
  unfold Account.mark_last_as_transfer
  split <;> rfl

theorem Account.mark_concat (to_id : String) {a : Account} {l : List Transaction}
    {t : Transaction} (h : a.transactions = l ++ [t]) :
    (a.mark_last_as_transfer to_id).transactions =
      l ++ [{ t with transaction_type := .Transfer to_id }] := by
  unfold Account.mark_last_as_transfer
  rw [h, List.getLast?_concat]
  simp [List.dropLast_concat]

/-!
## Facts about the association-list model of the customer map
-/

theorem lookupKey_mem {l : List (String × Customer)} {k : String} {c : Customer}
    (h : lookupKey l k = some c) : (k, c) ∈ l := by
  induction l with
  | nil => exact Option.noConfusion h
  | cons p rest ih =>
      obtain ⟨k', v⟩ := p
      rw [lookupKey] at h
      by_cases hk : k' = k
      · rw [if_pos hk] at h
        cases h
        subst hk
        exact List.mem_cons_self _ _
      · rw [if_neg hk] at h
        exact List.mem_cons_of_mem _ (ih h)

theorem lookupKey_updateVal_self (l : List (String × Customer)) (k : String)
    (v : Customer) : lookupKey (updateVal l k v) k = some v := by
  induction l with
  | nil => simp [updateVal, lookupKey]
  | cons p rest ih =>
      obtain ⟨k', v'⟩ := p
      by_cases hk : k' = k
      · simp [updateVal, lookupKey, hk]
      · simp [updateVal, lookupKey, hk, ih]

theorem updateVal_updateVal (l : List (String × Customer)) (k : String)
    (v v' : Customer) : updateVal (updateVal l k v) k v' = updateVal l k v' := by
  induction l with
  | nil => simp [updateVal]
  | cons p rest ih =>
      obtain ⟨k', v0⟩ := p
      by_cases hk : k' = k
      · simp [updateVal, hk]
      · simp [updateVal, hk, ih]

theorem updateVal_mem {l : List (String × Customer)} {k : String} {v : Customer}
    {p : String × Customer} (h : p ∈ updateVal l k v) : p ∈ l ∨ p = (k, v) := by
  induction l with
  | nil => simp [updateVal] at h; exact Or.inr h
  | cons q rest ih =>
      obtain ⟨k', v0⟩ := q
      by_cases hk : k' = k
      · rw [updateVal, if_pos hk] at h
        rcases List.mem_cons.mp h with h1 | h1
        · exact Or.inr (by rw [h1, hk])
        · exact Or.inl (List.mem_cons_of_mem _ h1)
      · rw [updateVal, if_neg hk] at h
        rcases List.mem_cons.mp h with h1 | h1
        · exact Or.inl (by rw [h1]; exact List.mem_cons_self _ _)
        · rcases ih h1 with h2 | h2
          · exact Or.inl (List.mem_cons_of_mem _ h2)
          · exact Or.inr h2

/-- The balance a customer contributes to `total_bank_balance`
(proof infrastructure, not a source function). -/
def balanceOrZero (c : Customer) : ℚ :=
  match c.account with
  | some a => a.balance
  | none => 0

theorem total_bank_balance_eq_sum (b : Bank) :
    b.total_bank_balance = (b.customers.map fun p => balanceOrZero p.2).sum := by
  unfold Bank.total_bank_balance
  induction b.customers with
  | nil => rfl
  | cons p rest ih =>
      obtain ⟨k, c⟩ := p
      cases hc : c.account <;>
        simp [List.filterMap_cons, hc, ih, balanceOrZero]

theorem sum_updateVal {l : List (String × Customer)} {k : String}
    {c : Customer} (c' : Customer) (h : lookupKey l k = some c) :
    ((updateVal l k c').map fun p => balanceOrZero p.2).sum
      = (l.map fun p => balanceOrZero p.2).sum - balanceOrZero c + balanceOrZero c' := by
  induction l with
  | nil => exact Option.noConfusion h
  | cons p rest ih =>
      obtain ⟨k0, v0⟩ := p
      rw [lookupKey] at h
      by_cases hk : k0 = k
      · rw [if_pos hk] at h
        cases h
        simp [updateVal, hk]
        ring
      · rw [if_neg hk] at h
        simp [updateVal, hk, ih h]
        ring


/-!
## Concrete example states used by witnesses and counterexamples

`bankPair` is the ledger reached from `Bank::new "B"` by registering Alice and
Bob and opening an account for each (Alice with 100, Bob with 0); `bankOneAcct`
is the ledger where only Alice's account has been opened.
-/

def acctAlice : Account :=
  { id := "a1", balance := 100,
    transactions := [{ id := "x1", transaction_type := .Deposit, amount := 100,
                       timestamp := "t", balance_after := 100 }],
    created_at := "t" }

def custAlice : Customer :=
  { id := "c1", name := "Alice", email := "a@x.com",
    account := some acctAlice, registered_at := "t" }

def acctBob : Account :=
  { id := "a2", balance := 0, transactions := [], created_at := "t" }

def custBob : Customer :=
  { id := "c2", name := "Bob", email := "b@x.com",
    account := some acctBob, registered_at := "t" }

def bankPair : Bank :=
  { name := "B",
    customers := [("c1", custAlice), ("c2", custBob)],
    total_transactions := 2 }

def bankOneAcct : Bank :=
  { name := "B",
    customers := [("c1", custAlice),
                  ("c2", { custBob with account := none })],
    total_transactions := 1 }

theorem reachable_bankPair : Reachable bankPair := by
  have h :=
    Reachable.create_account "a2" "t" "x2" "c2" 0
      (Reachable.create_account "a1" "t" "x1" "c1" 100
        (Reachable.register "c2" "t" "Bob" "b@x.com"
          (Reachable.register "c1" "t" "Alice" "a@x.com"
            (Reachable.init "B"))))
  have e : (Bank.create_account_for_customer "a2" "t" "x2" "c2" 0
      (Bank.create_account_for_customer "a1" "t" "x1" "c1" 100
        (Bank.register_customer "c2" "t" "Bob" "b@x.com"
          (Bank.register_customer "c1" "t" "Alice" "a@x.com" (Bank.new "B")).2).2).2).2
        = bankPair := by decide
  rwa [e] at h

theorem reachable_bankOneAcct : Reachable bankOneAcct := by
  have h :=
    Reachable.create_account "a1" "t" "x1" "c1" 100
      (Reachable.register "c2" "t" "Bob" "b@x.com"
        (Reachable.register "c1" "t" "Alice" "a@x.com"
          (Reachable.init "B")))
  have e : (Bank.create_account_for_customer "a1" "t" "x1" "c1" 100
      (Bank.register_customer "c2" "t" "Bob" "b@x.com"
        (Bank.register_customer "c1" "t" "Alice" "a@x.com" (Bank.new "B")).2).2).2
        = bankOneAcct := by decide
  rwa [e] at h

/-- Claim C2: for every ledger state and every call
`transfer(from_id, to_id, amount)` that returns success,
`total_bank_balance()` after the call equals `total_bank_balance()` before
the call. -/
theorem transfer_ok_conserves_total_bank_balance
    (w wn d dn fromId toId : String) (x : ℚ) (b b' : Bank)
    (h : b.transfer w wn d dn fromId toId x = (.ok (), b')) :
    b'.total_bank_balance = b.total_bank_balance := by
  unfold Bank.transfer at h
  dsimp only at h
  split_ifs at h with h1 h2
  split at h
  · exact absurd h (by simp)
  · rename_i fc heqf
    split at h
    · exact absurd h (by simp)
    · rename_i fa heqfa
      split at h
      · exact absurd h (by simp)
      · rename_i fa' heqw
        split at h
        · exact absurd h (by simp)
        · rename_i tc heqt
          split at h
          · exact absurd h (by simp)
          · rename_i ta heqta
            split at h
            · exact absurd h (by simp)
            · rename_i ta' heqd
              split at h
              · exact absurd h (by simp)
              · rename_i fc2 heqf2
                split at h
                · exact absurd h (by simp)
                · rename_i fa2 heqfa2
                  injection h with hOk hB
                  subst hB
                  obtain ⟨hw1, hw2, hw3⟩ := Account.withdraw_eq_ok heqw
                  obtain ⟨hd1, hd2⟩ := Account.deposit_eq_ok heqd
                  rw [total_bank_balance_eq_sum, total_bank_balance_eq_sum]
                  dsimp only
                  rw [sum_updateVal _ heqf2, sum_updateVal _ heqt,
                    sum_updateVal _ heqf]
                  simp only [balanceOrZero, heqfa, heqta, heqfa2, hw3, hd2,
                    Account.mark_balance]
                  ring
  all_goals exact absurd h (by simp)

deriving instance DecidableEq for Except

/-- Alice's account after the successful transfer of 40 to Bob: debited, with
the withdrawal leg reclassified to a transfer towards Bob's account. -/
def acctAliceAfter : Account :=
  { id := "a1", balance := 60,
    transactions :=
      [{ id := "x1", transaction_type := .Deposit, amount := 100,
         timestamp := "t", balance_after := 100 },
       { id := "w", transaction_type := .Transfer "a2", amount := 40,
         timestamp := "tw", balance_after := 60 }],
    created_at := "t" }

/-- Bob's account after the successful transfer of 40 from Alice. -/
def acctBobAfter : Account :=
  { id := "a2", balance := 40,
    transactions :=
      [{ id := "d", transaction_type := .Deposit, amount := 40,
         timestamp := "td", balance_after := 40 }],
    created_at := "t" }

/-- The ledger obtained from `bankPair` by the successful transfer of 40 from
Alice to Bob. -/
def bankPairAfter : Bank :=
  { name := "B",
    customers :=
      [("c1", { custAlice with account := some acctAliceAfter }),
       ("c2", { custBob with account := some acctBobAfter })],
    total_transactions := 4 }

theorem transfer_ok_conserves_total_bank_balance_witness :
    bankPairAfter.total_bank_balance = bankPair.total_bank_balance :=
  transfer_ok_conserves_total_bank_balance "w" "tw" "d" "td" "c1" "c2" 40
    bankPair bankPairAfter (by
      norm_num [Bank.transfer, bankPair, custAlice, custBob, acctAlice, acctBob,
        containsKey, lookupKey, updateVal, Account.withdraw, Account.deposit,
        Account.mark_last_as_transfer, Transaction.new, bankPairAfter,
        acctAliceAfter, acctBobAfter,
        show ("c1" : String) ≠ "c2" by decide,
        show ("c2" : String) ≠ "c1" by decide])

/-- Claim C6: when the source customer's account balance is below the
requested (nonnegative-state) amount and both customers exist, `transfer`
returns `InsufficientFunds{available, requested}` with `available` the
pre-transfer source balance and `requested` the amount, and the whole ledger
state (both accounts and `total_transactions`) is unchanged. -/
theorem transfer_insufficient_funds_no_mutation
    (w wn d dn fromId toId : String) (x : ℚ) (b : Bank) (fc tc : Customer)
    (fa : Account)
    (hf : lookupKey b.customers fromId = some fc)
    (hfa : fc.account = some fa)
    (ht : lookupKey b.customers toId = some tc)
    (h0 : 0 ≤ fa.balance)
    (hlt : fa.balance < x) :
    b.transfer w wn d dn fromId toId x =
      (.error (.InsufficientFunds fa.balance x), b) := by
  have hx : ¬ x ≤ 0 := not_le.mpr (lt_of_le_of_lt h0 hlt)
  unfold Bank.transfer
  rw [if_neg (by simp [containsKey, hf]), if_neg (by simp [containsKey, ht]),
    hf]
  simp only [Account.withdraw, hfa, if_neg hx, if_pos hlt]

theorem transfer_insufficient_funds_no_mutation_witness :
    bankPair.transfer "w" "tw" "d" "td" "c2" "c1" 1000 =
      (.error (.InsufficientFunds 0 1000), bankPair) :=
  transfer_insufficient_funds_no_mutation "w" "tw" "d" "td" "c2" "c1" 1000
    bankPair custBob custAlice acctBob
    (by decide) (by decide) (by decide) (by norm_num [acctBob])
    (by norm_num [acctBob])

/-- Claim C7: withdrawing an amount `x` with `0 < x ≤ balance` and then
depositing `x` back both succeed and restore the original balance exactly. -/
theorem withdraw_then_deposit_restores_balance (i1 n1 i2 n2 : String)
    (a : Account) (x : ℚ) (h1 : 0 < x) (h2 : x ≤ a.balance) :
    ∃ a1 a2, a.withdraw i1 n1 x = .ok a1 ∧ a1.deposit i2 n2 x = .ok a2 ∧
      a2.balance = a.balance := by
  refine
    ⟨{ a with
         balance := a.balance - x
         transactions := a.transactions ++
           [Transaction.new i1 n1 .Withdrawal x (a.balance - x)] },
     { a with
         balance := a.balance - x + x
         transactions := (a.transactions ++
             [Transaction.new i1 n1 .Withdrawal x (a.balance - x)]) ++
           [Transaction.new i2 n2 .Deposit x (a.balance - x + x)] },
     ?_, ?_, ?_⟩
  · unfold Account.withdraw
    rw [if_neg (not_le.mpr h1), if_neg (not_lt.mpr h2)]
  · unfold Account.deposit
    rw [if_neg (not_le.mpr h1)]
  · show a.balance - x + x = a.balance
    ring

theorem withdraw_then_deposit_restores_balance_witness :
    ∃ a1 a2, acctAlice.withdraw "w" "tw" 40 = .ok a1 ∧
      a1.deposit "d" "td" 40 = .ok a2 ∧ a2.balance = acctAlice.balance :=
  withdraw_then_deposit_restores_balance "w" "tw" "d" "td" acctAlice 40
    (by norm_num) (by norm_num [acctAlice])

/-- Claim C4, counterexample: creating an account for a customer that already
has one does fail and does leave the state unchanged, but the error kind is
`CustomerAlreadyExists("Customer already has an account")` — the error
taxonomy has no `AccountAlreadyExists` kind at all. -/
theorem create_account_existing_returns_customer_already_exists :
    bankOneAcct.create_account_for_customer "a9" "t9" "x9" "c1" 10 =
      (.error (.CustomerAlreadyExists "Customer already has an account"),
       bankOneAcct) := by
  norm_num [Bank.create_account_for_customer, bankOneAcct, custAlice, acctAlice,
    custBob, lookupKey, Customer.create_account]

/-- Claim C4 as amended: for every customer that already has an account,
`create_account_for_customer` fails with
`CustomerAlreadyExists("Customer already has an account")` and returns the
ledger unchanged (so the existing account is untouched). -/
theorem create_account_existing_error_and_unchanged
    (accId now txId cid : String) (d : ℚ) (b : Bank) (c : Customer)
    (a : Account) (hc : lookupKey b.customers cid = some c)
    (ha : c.account = some a) :
    b.create_account_for_customer accId now txId cid d =
      (.error (.CustomerAlreadyExists "Customer already has an account"), b) := by
  unfold Bank.create_account_for_customer
  rw [hc]
  simp only [Customer.create_account, ha]

theorem create_account_existing_error_and_unchanged_witness :
    bankPair.create_account_for_customer "a8" "t8" "x8" "c2" 25 =
      (.error (.CustomerAlreadyExists "Customer already has an account"),
       bankPair) :=
  create_account_existing_error_and_unchanged "a8" "t8" "x8" "c2" 25 bankPair
    custBob acctBob (by decide) (by decide)

/-!
## Aggregates over the transaction log (claim C3)

`sumWithdrawalOrTransferOut` follows the specification's words (a
`TransferOut` counts as a withdrawal); `sumWithdrawalOnly` and
`sumDepositOnly` are plain recursive restatements of single-kind sums, used
to state what the source aggregates actually compute.
-/

def sumWithdrawalOrTransferOut : List Transaction → ℚ
  | [] => 0
  | tx :: rest =>
      (match tx.transaction_type with
       | .Withdrawal => tx.amount
       | .Transfer _ => tx.amount
       | .Deposit => 0) + sumWithdrawalOrTransferOut rest

def sumWithdrawalOnly : List Transaction → ℚ
  | [] => 0
  | tx :: rest =>
      (match tx.transaction_type with
       | .Withdrawal => tx.amount
       | _ => 0) + sumWithdrawalOnly rest

def sumDepositOnly : List Transaction → ℚ
  | [] => 0
  | tx :: rest =>
      (match tx.transaction_type with
       | .Deposit => tx.amount
       | _ => 0) + sumDepositOnly rest

/-- Claim C3, counterexample: on Alice's post-transfer account (one Deposit of
100, one TransferOut of 40) the source's `total_withdrawals` returns 0, not
the 40 the claim's "Withdrawal or TransferOut" sum requires. -/
theorem total_withdrawals_ignores_transfer_out :
    acctAliceAfter.total_withdrawals ≠
      sumWithdrawalOrTransferOut acctAliceAfter.transactions := by
  norm_num [Account.total_withdrawals, sumWithdrawalOrTransferOut,
    acctAliceAfter, List.filter]

/-- Claim C3 as amended: `total_withdrawals()` sums the amounts of exactly the
transactions of kind `Withdrawal` (a `TransferOut` is not counted), and
`total_deposits()` sums the amounts of exactly the transactions of kind
`Deposit`. -/
theorem totals_sum_exact_kinds (a : Account) :
    a.total_withdrawals = sumWithdrawalOnly a.transactions ∧
    a.total_deposits = sumDepositOnly a.transactions := by
  constructor
  · unfold Account.total_withdrawals
    induction a.transactions with
    | nil => rfl
    | cons tx rest ih =>
        cases htx : tx.transaction_type <;>
          simp [List.filter_cons, htx, ih, sumWithdrawalOnly]
  · unfold Account.total_deposits
    induction a.transactions with
    | nil => rfl
    | cons tx rest ih =>
        cases htx : tx.transaction_type <;>
          simp [List.filter_cons, htx, ih, sumDepositOnly]

/-- Alice's account after the aborted transfer towards account-less Bob:
debited by 30 with the withdrawal recorded, though the transfer failed. -/
def acctAliceDebited : Account :=
  { id := "a1", balance := 70,
    transactions :=
      [{ id := "x1", transaction_type := .Deposit, amount := 100,
         timestamp := "t", balance_after := 100 },
       { id := "w", transaction_type := .Withdrawal, amount := 30,
         timestamp := "tw", balance_after := 70 }],
    created_at := "t" }

/-- Claim C1 fails on the code: from the reachable ledger `bankOneAcct`
(Alice with an account holding 100, Bob registered but without an account),
`transfer("c1", "c2", 30)` returns the error `AccountNotFound("c2")`, yet the
resulting state is NOT the pre-call state: Alice's account has been debited to
70 and carries a new Withdrawal transaction — the amount has left the source
without arriving anywhere. -/
theorem transfer_debits_source_on_missing_destination_account :
    (bankOneAcct.transfer "w" "tw" "d" "td" "c1" "c2" 30).1 =
      .error (.AccountNotFound "c2") ∧
    lookupKey (bankOneAcct.transfer "w" "tw" "d" "td" "c1" "c2" 30).2.customers
        "c1" =
      some { custAlice with account := some acctAliceDebited } ∧
    (bankOneAcct.transfer "w" "tw" "d" "td" "c1" "c2" 30).2 ≠ bankOneAcct := by
  refine ⟨?_, ?_, ?_⟩ <;>
    norm_num [Bank.transfer, bankOneAcct, custAlice, custBob, acctAlice,
      acctAliceDebited, containsKey, lookupKey, updateVal, Account.withdraw,
      Transaction.new,
      show ("c1" : String) ≠ "c2" by decide,
      show ("c2" : String) ≠ "c1" by decide]

/-!
## The ledger invariants (claims C5 and C9)

`AccountInv` packages the two per-account invariants stated by the
specification: the balance is never negative, and it always equals the
`balance_after` of the last transaction (0 — the only possible initial
deposit of an account whose log is empty — when there is none).
-/

def AccountInv (a : Account) : Prop :=
  0 ≤ a.balance ∧
  (a.transactions = [] → a.balance = 0) ∧
  (∀ t, a.transactions.getLast? = some t → a.balance = t.balance_after)

def CustomerInv (c : Customer) : Prop :=
  ∀ a, c.account = some a → AccountInv a

def ListInv (l : List (String × Customer)) : Prop :=
  ∀ p ∈ l, CustomerInv p.2

def BankInv (b : Bank) : Prop :=
  ListInv b.customers

theorem accountInv_new {i n t : String} {d : ℚ} {a : Account}
    (h : Account.new i n t d = .ok a) : AccountInv a := by
  obtain ⟨h0, _, hbal, _, htx⟩ := Account.new_eq_ok h
  by_cases hd : 0 < d
  · rw [if_pos hd] at htx
    refine ⟨by rw [hbal]; exact h0, ?_, ?_⟩
    · intro he
      rw [htx] at he
      exact absurd he (by simp)
    · intro tx htx'
      rw [htx] at htx'
      simp only [List.getLast?_singleton, Option.some.injEq] at htx'
      rw [hbal, ← htx']
      rfl
  · rw [if_neg hd] at htx
    have hd0 : d = 0 := le_antisymm (not_lt.mp hd) h0
    refine ⟨by rw [hbal]; exact h0, fun _ => by rw [hbal, hd0], ?_⟩
    intro tx htx'
    rw [htx] at htx'
    exact Option.noConfusion htx'

theorem accountInv_deposit {i n : String} {x : ℚ} {a a' : Account}
    (ha : AccountInv a) (h : a.deposit i n x = .ok a') : AccountInv a' := by
  obtain ⟨hx, he⟩ := Account.deposit_eq_ok h
  subst he
  refine ⟨?_, ?_, ?_⟩
  · have := ha.1
    dsimp
    linarith
  · intro hemp
    exact absurd hemp (by simp)
  · intro t ht
    dsimp at ht ⊢
    rw [List.getLast?_concat] at ht
    injection ht with ht
    rw [← ht]
    rfl

theorem accountInv_withdraw {i n : String} {x : ℚ} {a a' : Account}
    (_ha : AccountInv a) (h : a.withdraw i n x = .ok a') : AccountInv a' := by
  obtain ⟨hx, hle, he⟩ := Account.withdraw_eq_ok h
  subst he
  refine ⟨?_, ?_, ?_⟩
  · dsimp
    linarith
  · intro hemp
    exact absurd hemp (by simp)
  · intro t ht
    dsimp at ht ⊢
    rw [List.getLast?_concat] at ht
    injection ht with ht
    rw [← ht]
    rfl

theorem accountInv_mark {to_id : String} {a : Account} (ha : AccountInv a) :
    AccountInv (a.mark_last_as_transfer to_id) := by
  unfold Account.mark_last_as_transfer
  split
  · exact ha
  · rename_i t heq
    refine ⟨ha.1, ?_, ?_⟩
    · intro hemp
      exact absurd hemp (by simp)
    · intro t' ht'
      dsimp at ht'
      rw [List.getLast?_concat] at ht'
      injection ht' with ht'
      rw [← ht']
      exact ha.2.2 t heq

theorem customerInv_set {c : Customer} {a : Account} (h : AccountInv a) :
    CustomerInv { c with account := some a } := by
  intro a' ha'
  injection ha' with ha'
  rw [← ha']
  exact h

theorem listInv_updateVal {l : List (String × Customer)} {k : String}
    {c : Customer} (hl : ListInv l) (hc : CustomerInv c) :
    ListInv (updateVal l k c) := by
  intro p hp
  rcases updateVal_mem hp with h | h
  · exact hl p h
  · rw [h]
    exact hc

theorem Customer.create_account_eq_ok {ai n ti : String} {d : ℚ}
    {c c' : Customer} (h : c.create_account ai n ti d = .ok c') :
    ∃ acc, Account.new ai n ti d = .ok acc ∧
      c' = { c with account := some acc } := by
  unfold Customer.create_account at h
  split at h
  · exact Except.noConfusion h
  · split at h
    · exact Except.noConfusion h
    · rename_i acc heq
      injection h with h
      exact ⟨acc, heq, h.symm⟩

theorem bankInv_register {b : Bank} (hb : BankInv b)
    (ci n na em : String) : BankInv (b.register_customer ci n na em).2 := by
  unfold Bank.register_customer
  split
  · exact hb
  · refine listInv_updateVal hb ?_
    intro a h
    exact Option.noConfusion h

theorem bankInv_create_account {b : Bank} (hb : BankInv b)
    (ai n ti ci : String) (d : ℚ) :
    BankInv (b.create_account_for_customer ai n ti ci d).2 := by
  unfold Bank.create_account_for_customer
  split
  · exact hb
  · rename_i c heqc
    split
    · exact hb
    · rename_i c' heq
      obtain ⟨acc, hacc, hc'⟩ := Customer.create_account_eq_ok heq
      have hinv : ListInv (updateVal b.customers ci c') := by
        refine listInv_updateVal hb ?_
        rw [hc']
        exact customerInv_set (accountInv_new hacc)
      split
      · exact hinv
      · exact hinv

theorem bankInv_deposit {b : Bank} (hb : BankInv b) (ti n ci : String)
    (x : ℚ) : BankInv (b.deposit ti n ci x).2 := by
  unfold Bank.deposit
  split
  · exact hb
  · rename_i c heqc
    split
    · exact hb
    · rename_i a heqa
      split
      · exact hb
      · rename_i a' heqd
        exact listInv_updateVal hb
          (customerInv_set
            (accountInv_deposit (hb _ (lookupKey_mem heqc) a heqa) heqd))

theorem bankInv_withdraw {b : Bank} (hb : BankInv b) (ti n ci : String)
    (x : ℚ) : BankInv (b.withdraw ti n ci x).2 := by
  unfold Bank.withdraw
  split
  · exact hb
  · rename_i c heqc
    split
    · exact hb
    · rename_i a heqa
      split
      · exact hb
      · rename_i a' heqw
        exact listInv_updateVal hb
          (customerInv_set
            (accountInv_withdraw (hb _ (lookupKey_mem heqc) a heqa) heqw))

theorem bankInv_transfer {b : Bank} (hb : BankInv b)
    (w wn d dn fromId toId : String) (x : ℚ) :
    BankInv (b.transfer w wn d dn fromId toId x).2 := by
  unfold Bank.transfer
  dsimp only
  split_ifs with h1 h2
  case _ =>
    split
    · exact hb
    · rename_i fc heqf
      split
      · exact hb
      · rename_i fa heqfa
        split
        · exact hb
        · rename_i fa' heqw
          have hinv1 : ListInv (updateVal b.customers fromId
              { fc with account := some fa' }) :=
            listInv_updateVal hb
              (customerInv_set
                (accountInv_withdraw (hb _ (lookupKey_mem heqf) fa heqfa) heqw))
          split
          · exact hinv1
          · rename_i tc heqt
            split
            · exact hinv1
            · rename_i ta heqta
              split
              · exact hinv1
              · rename_i ta' heqd
                have hinv2 : ListInv (updateVal (updateVal b.customers fromId
                    { fc with account := some fa' }) toId
                    { tc with account := some ta' }) :=
                  listInv_updateVal hinv1
                    (customerInv_set
                      (accountInv_deposit
                        (hinv1 _ (lookupKey_mem heqt) ta heqta) heqd))
                split
                · exact hinv2
                · rename_i fc2 heqf2
                  split
                  · exact hinv2
                  · rename_i fa2 heqfa2
                    exact listInv_updateVal hinv2
                      (customerInv_set
                        (accountInv_mark
                          (hinv2 _ (lookupKey_mem heqf2) fa2 heqfa2)))
  all_goals exact hb

theorem reachable_bankInv {b : Bank} (h : Reachable b) : BankInv b := by
  induction h with
  | init name =>
      intro p hp
      exact absurd hp (by simp [Bank.new])
  | register ci n na em _ ih => exact bankInv_register ih ci n na em
  | create_account ai n ti ci d _ ih => exact bankInv_create_account ih ai n ti ci d
  | deposit ti n ci x _ ih => exact bankInv_deposit ih ti n ci x
  | withdraw ti n ci x _ ih => exact bankInv_withdraw ih ti n ci x
  | transfer w wn d dn fi ti x _ ih => exact bankInv_transfer ih w wn d dn fi ti x

/-- Claim C5: in every ledger state reachable by any sequence of operations
(account creation, deposit, withdraw, transfer — successful or failed), every
account of every customer has a nonnegative balance. -/
theorem reachable_balances_nonneg (b : Bank) (hb : Reachable b) :
    ∀ p ∈ b.customers, ∀ a, p.2.account = some a → 0 ≤ a.balance :=
  fun p hp a ha => (reachable_bankInv hb p hp a ha).1

theorem reachable_balances_nonneg_witness : 0 ≤ acctAlice.balance :=
  reachable_balances_nonneg bankPair reachable_bankPair ("c1", custAlice)
    (by decide) acctAlice (by decide)

/-- Claim C9: in every reachable ledger state, every account's balance equals
the `balance_after` of the last transaction of its log, or 0 when the log is
empty — and an account's log is empty exactly when its initial deposit was 0,
in which case the balance at creation is that initial deposit. -/
theorem reachable_balance_matches_last_transaction (b : Bank)
    (hb : Reachable b) :
    (∀ p ∈ b.customers, ∀ a, p.2.account = some a →
        (a.transactions = [] → a.balance = 0) ∧
        (∀ t, a.transactions.getLast? = some t → a.balance = t.balance_after)) ∧
    (∀ i n ti : String, ∀ d : ℚ, ∀ a : Account,
        Account.new i n ti d = .ok a →
          a.balance = d ∧ (a.transactions = [] ↔ d = 0)) := by
  constructor
  · intro p hp a ha
    exact (reachable_bankInv hb p hp a ha).2
  · intro i n ti d a h
    obtain ⟨h0, _, hbal, _, htx⟩ := Account.new_eq_ok h
    refine ⟨hbal, ?_⟩
    by_cases hd : 0 < d
    · rw [if_pos hd] at htx
      constructor
      · intro he
        rw [htx] at he
        exact absurd he (by simp)
      · intro he
        rw [he] at hd
        exact absurd hd (by norm_num)
    · rw [if_neg hd] at htx
      have : d = 0 := le_antisymm (not_lt.mp hd) h0
      simp [htx, this]

theorem reachable_balance_matches_last_transaction_witness :
    acctAlice.balance =
      ({ id := "x1", transaction_type := .Deposit, amount := 100,
         timestamp := "t", balance_after := 100 } : Transaction).balance_after :=
  ((reachable_balance_matches_last_transaction bankPair reachable_bankPair).1
    ("c1", custAlice) (by decide) acctAlice (by decide)).2 _ (by decide)

/-- Claim C10: a self-transfer `transfer(c, c, x)` with `0 < x ≤ balance`
succeeds, leaves the balance unchanged, appends exactly two transactions to
the single account — first the Withdrawal leg (balance_after = balance − x),
then the deposit leg — reclassifies the last-appended one (the deposit leg)
to `Transfer` towards the account's own id with `balance_after` back at the
original balance, and adds 2 to `total_transactions`. -/
theorem self_transfer_behaviour (w wn d dn cid : String) (x : ℚ) (b : Bank)
    (c : Customer) (a : Account) (hc : lookupKey b.customers cid = some c)
    (ha : c.account = some a) (h1 : 0 < x) (h2 : x ≤ a.balance) :
    b.transfer w wn d dn cid cid x =
      (.ok (),
       { b with
           customers := updateVal b.customers cid
             { c with account := some ({ a with
                 transactions := a.transactions ++
                     [Transaction.new w wn .Withdrawal x (a.balance - x),
                      { id := d, transaction_type := .Transfer a.id,
                        amount := x, timestamp := dn,
                        balance_after := a.balance }] }) },
           total_transactions := b.total_transactions + 2 }) := by
  have hw : a.withdraw w wn x = .ok
      { a with
          balance := a.balance - x
          transactions := a.transactions ++
            [Transaction.new w wn .Withdrawal x (a.balance - x)] } := by
    unfold Account.withdraw
    rw [if_neg (not_le.mpr h1), if_neg (not_lt.mpr h2)]
  unfold Bank.transfer
  rw [if_neg (by simp [containsKey, hc]), if_neg (by simp [containsKey, hc]),
    hc]
  dsimp only
  rw [ha]
  dsimp only
  rw [hw]
  dsimp only
  rw [lookupKey_updateVal_self]
  dsimp only
  rw [show (({ a with
          balance := a.balance - x
          transactions := a.transactions ++
            [Transaction.new w wn .Withdrawal x (a.balance - x)] } :
        Account).deposit d dn x) = .ok
      { a with
          balance := a.balance - x + x
          transactions := (a.transactions ++
              [Transaction.new w wn .Withdrawal x (a.balance - x)]) ++
            [Transaction.new d dn .Deposit x (a.balance - x + x)] } by
    unfold Account.deposit
    rw [if_neg (not_le.mpr h1)]]
  dsimp only
  rw [updateVal_updateVal, lookupKey_updateVal_self]
  dsimp only
  rw [updateVal_updateVal]
  unfold Account.mark_last_as_transfer
  rw [List.getLast?_concat]
  dsimp only
  rw [List.dropLast_concat]
  simp only [Prod.mk.injEq, Bank.mk.injEq, Customer.mk.injEq,
    Account.mk.injEq, Option.some.injEq, Transaction.mk.injEq, Transaction.new,
    List.append_assoc, List.cons_append, List.nil_append, sub_add_cancel_right]
  simp

theorem self_transfer_behaviour_witness :
    bankPair.transfer "w" "tw" "d" "td" "c1" "c1" 40 =
      (.ok (),
       { bankPair with
           customers := updateVal bankPair.customers "c1"
             { custAlice with account := some ({ acctAlice with
                 transactions := acctAlice.transactions ++
                     [Transaction.new "w" "tw" .Withdrawal 40
                        (acctAlice.balance - 40),
                      { id := "d", transaction_type := .Transfer acctAlice.id,
                        amount := 40, timestamp := "td",
                        balance_after := acctAlice.balance }] }) },
           total_transactions := bankPair.total_transactions + 2 }) :=
  self_transfer_behaviour "w" "tw" "d" "td" "c1" 40 bankPair custAlice
    acctAlice (by decide) (by decide) (by norm_num)
    (by norm_num [acctAlice])

/-!
## Round trip of the persisted document (claim C8)
-/

theorem decodeTransactionType_encode (ty : TransactionType) :
    decodeTransactionType (encodeTransactionType ty) = some ty := by
  cases ty <;> rfl

theorem decodeTransaction_encode (t : Transaction) :
    decodeTransaction (encodeTransaction t) = some t := by
  simp [encodeTransaction, decodeTransaction, decodeTransactionType_encode]

theorem decodeListWith_encode {α : Type} (f : Json → Option α) (g : α → Json)
    (hfg : ∀ x, f (g x) = some x) (l : List α) :
    decodeListWith f (l.map g) = some l := by
  induction l with
  | nil => rfl
  | cons x rest ih =>
      unfold decodeListWith
      rw [List.map_cons]
      dsimp only
      rw [hfg x, ih]
      rfl

theorem decodeAccount_encode (a : Account) :
    decodeAccount (encodeAccount a) = some a := by
  simp [encodeAccount, decodeAccount,
    decodeListWith_encode decodeTransaction encodeTransaction
      decodeTransaction_encode]

theorem decodeOptAccount_encode (oa : Option Account) :
    decodeOptAccount (encodeOptAccount oa) = some oa := by
  cases oa with
  | none => rfl
  | some a =>
      have h := decodeAccount_encode a
      unfold encodeOptAccount encodeAccount decodeOptAccount
      unfold encodeAccount at h
      dsimp only
      rw [h]
      rfl

theorem decodeCustomer_encode (c : Customer) :
    decodeCustomer (encodeCustomer c) = some c := by
  simp [encodeCustomer, decodeCustomer, decodeOptAccount_encode]

theorem decodeCustomerMap_encode (l : List (String × Customer)) :
    decodeCustomerMap (l.map fun p => (p.1, encodeCustomer p.2)) = some l := by
  induction l with
  | nil => rfl
  | cons p rest ih =>
      obtain ⟨k, c⟩ := p
      unfold decodeCustomerMap
      rw [List.map_cons]
      dsimp only
      rw [decodeCustomer_encode, ih]
      rfl

theorem decodeNat_encode (n : Nat) : decodeNat (encodeNat n) = some n := by
  unfold encodeNat decodeNat
  dsimp only
  rw [if_pos]
  · simp
  · constructor
    · exact Rat.den_natCast n
    · rw [Rat.num_natCast]
      exact Int.natCast_nonneg n

theorem decodeBank_encode (b : Bank) : decodeBank (encodeBank b) = some b := by
  simp [encodeBank, decodeBank, decodeCustomerMap_encode, decodeNat_encode]

/-- Claim C8: saving any constructed ledger state and loading from the same
location yields exactly the saved ledger — equal in the name, every customer
with its nested optional account and ordered transaction list, and the
counter. -/
theorem save_then_load_roundtrip (b : Bank) (filename : String)
    (fs : String → Option Json) :
    load_bank filename (save_bank b filename fs) = .ok b := by
  unfold load_bank save_bank
  rw [if_pos rfl]
  dsimp only
  rw [decodeBank_encode]
